import Mathlib

/-!
Verification of the ARGO float data pipeline against its specification.

The development shallowly embeds the three scripts of the repository:

* `ArgoLoad` embeds the file Ingestor (`data loader/argo_load.py`):
  masked-profile averaging, the per-cycle insert loop with its error
  handler, and the folder loop.
* `SqlToChroma` embeds the summarization pipeline
  (`data loader/sql_to_chromadb.py`): the per-row Gemini summarization
  with its placeholder defaults, and the checkpointed page driver loop.
* `MainApi` embeds the FastAPI service (`main.py`): null-byte cleaning,
  the `/analyze` plan execution and response assembly, and the
  `/trajectories` ordered grouping.

Machine floating-point values are modelled as rationals; external
libraries (the JSON parser, the SQL engine, the vector store, the
language model) are modelled as total function parameters supplied by
the environment, since the scripts treat them as black boxes.
-/

namespace PyStr

/-- Whitespace characters removed by the Python `str.strip()` method
(ASCII whitespace; the rare non-ASCII Python whitespace is not used by
any string the scripts handle). -/
def isSpace (c : Char) : Bool :=
  c == ' ' || c == '\t' || c == '\n' || c == '\r' || c == '\x0b' || c == '\x0c'

/-- Python `s.strip()`: remove leading and trailing whitespace. -/
def pyStrip (s : String) : String :=
  String.mk (((s.toList.dropWhile isSpace).reverse.dropWhile isSpace).reverse)

/-- Helper for `pyReplace`: leftmost, non-overlapping replacement of the
nonempty pattern `p0 :: prest` by `repl`, exactly as Python
`str.replace` scans.  The fuel argument bounds the recursion by the
input length (each step consumes at least one character), keeping the
definition structural. -/
def pyReplaceAux (p0 : Char) (prest repl : List Char) : Nat → List Char → List Char
  | 0, l => l
  | _ + 1, [] => []
  | fuel + 1, c :: rest =>
    if (p0 :: prest).isPrefixOf (c :: rest) then
      repl ++ pyReplaceAux p0 prest repl fuel (rest.drop prest.length)
    else
      c :: pyReplaceAux p0 prest repl fuel rest

/-- Python `s.replace(pat, repl)` for a nonempty pattern (the scripts
only replace the nonempty patterns null byte, triple backtick and
triple backtick followed by the word json). -/
def pyReplace (s pat repl : String) : String :=
  match pat.toList with
  | [] => s
  | p :: ps => String.mk (pyReplaceAux p ps repl.toList s.toList.length s.toList)

end PyStr

deriving instance DecidableEq for Except

namespace ArgoLoad

/-- A profile array element of a netCDF masked array: the raw value and
its mask flag (`true` means the element is masked, i.e. invalid). -/
abbrev MaskedProfile := List (ℚ × Bool)

/-- The unmasked (valid) values of a profile, in order. -/
def validValues (p : MaskedProfile) : List ℚ :=
  (p.filter (fun x => !x.2)).map Prod.fst

/-- Running sum and count of the valid elements, as a single left fold:
the accumulator a numerical mean computation maintains. -/
def sumCount (p : MaskedProfile) : ℚ × Nat :=
  p.foldl (fun acc x => if x.2 then acc else (acc.1 + x.1, acc.2 + 1)) (0, 0)

/-- `numpy.nanmean` over a masked profile: mean of the valid elements
(values are rationals here, so no separate NaN case arises). -/
def nanmean (p : MaskedProfile) : ℚ :=
  (sumCount p).1 / ((sumCount p).2 : ℚ)

/-- The per-variable scalar stored by the Ingestor, embedding
`float(np.nanmean(profile)) if np.any(~profile.mask) else None`
from `process_nc_file`. -/
def profile_avg (p : MaskedProfile) : Option ℚ :=
  if p.any (fun x => !x.2) then some (nanmean p) else none

/-- One row of the `argo_profile_data` table as inserted by the
Ingestor.  The table has only the auto-assigned primary key, modelled
by the row position in the table list: no uniqueness constraint
relates `float_id` and `cycle_number`. -/
structure Row where
  float_id : String
  cycle_number : Int
  juld : String
  latitude : ℚ
  longitude : ℚ
  pressure : Option ℚ
  temperature : Option ℚ
  salinity : Option ℚ
deriving DecidableEq

/-- The tuple handed to the INSERT statement for one cycle. -/
def buildRow (fid : String) (cyc : Int) (t : String) (la lo : ℚ)
    (pres temp psal : MaskedProfile) : Row :=
  { float_id := fid
    cycle_number := cyc
    juld := t
    latitude := la
    longitude := lo
    pressure := profile_avg pres
    temperature := profile_avg temp
    salinity := profile_avg psal }

/-- The per-cycle data of one iteration of the loop in
`process_nc_file`, with the fallible steps made explicit:
`cycleConv` is the result of `int(cycles[i])` (the first statement of
the try block, executed before the local variable `cycle` is bound);
`restConv` bundles the remaining conversions (isoformat time, float
latitude and longitude); `insertFails` is true when the INSERT itself
raises (e.g. a malformed value rejected by the driver). -/
structure CycleInput where
  cycleConv : Except String Int
  restConv : Except String (String × ℚ × ℚ)
  pres : MaskedProfile
  temp : MaskedProfile
  psal : MaskedProfile
  insertFails : Bool
deriving DecidableEq

/-- The row a cycle commits, when every step of its loop body
succeeds. -/
def successRow (fid : String) (c : CycleInput) : Option Row :=
  match c.cycleConv with
  | .error _ => none
  | .ok cyc =>
    match c.restConv with
    | .error _ => none
    | .ok (t, la, lo) =>
      if c.insertFails then none
      else some (buildRow fid cyc t la lo c.pres c.temp c.psal)

/-- The cycle loop of `process_nc_file`.  `bound` records whether the
Python local `cycle` has been assigned by some earlier iteration: the
except handler interpolates `cycle` into its log message, so when a
cycle fails before the first successful assignment the handler itself
raises an unbound-local error, which escapes to the outer handler and
aborts the whole file.  Returns the table after the loop and how many
cycles were attempted (entered), committed rows being appended one per
independently committed insert. -/
def processCycles (fid : String) : Bool → List Row → List CycleInput → List Row × Nat
  | _, db, [] => (db, 0)
  | bound, db, c :: cs =>
    match c.cycleConv with
    | .error _ =>
      if bound then
        let r := processCycles fid bound db cs
        (r.1, r.2 + 1)
      else
        (db, 1)
    | .ok cyc =>
      match c.restConv with
      | .error _ =>
        let r := processCycles fid true db cs
        (r.1, r.2 + 1)
      | .ok (t, la, lo) =>
        if c.insertFails then
          let r := processCycles fid true db cs
          (r.1, r.2 + 1)
        else
          let r := processCycles fid true
            (db ++ [buildRow fid cyc t la lo c.pres c.temp c.psal]) cs
          (r.1, r.2 + 1)

/-- A file as seen by `process_nc_file`: either the metadata extraction
fails (outer handler logs and the file contributes nothing), or it
yields the decoded float identifier and the per-cycle inputs. -/
abbrev FileInput := Except String (String × List CycleInput)

/-- `process_nc_file`: process one file against the current table. -/
def process_nc_file (db : List Row) (f : FileInput) : List Row :=
  match f with
  | .error _ => db
  | .ok (fid, cs) => (processCycles fid false db cs).1

/-- The folder loop at the bottom of the script: every file is handed
to `process_nc_file`, whose outer handler catches all of its errors. -/
def processFolder (db : List Row) (fs : List FileInput) : List Row :=
  fs.foldl process_nc_file db

end ArgoLoad

namespace SqlToChroma

/-- Cleaning of a Gemini reply in `fetch_process_and_index_data`:
`response.text.strip().replace(triple-backtick-json, empty)
.replace(triple-backtick, empty)`. -/
def clean_reply (s : String) : String :=
  PyStr.pyReplace (PyStr.pyReplace (PyStr.pyStrip s) "```json" "") "```" ""

/-- Placeholder appended when the try block of a row fails (the model
call, the JSON parse, or the attribute access on a non-object). -/
def failPlaceholder (index : Nat) : String :=
  "Documentation failed for record " ++ toString index ++ "."

/-- The warning printed for a failed row. -/
def failWarning (index : Nat) : String :=
  "Warning: Could not process Gemini response for record " ++ toString index ++ "."

/-- One row of the Gemini loop in `fetch_process_and_index_data`.
`parse` embeds `json.loads` followed by the dictionary access: it
returns the parsed top-level object as key-value pairs, or `none` when
the reply is not valid JSON (or not an object, so that `.get` raises).
`gemini_output.get` with a default becomes a lookup with `getD`.
Returns the summary recorded for the row and the log entries
printed. -/
def summarize_row (parse : String → Option (List (String × String)))
    (index : Nat) (reply : String) : String × List String :=
  match parse (clean_reply reply) with
  | some obj => ((obj.lookup "summary").getD "Summary not available.", [])
  | none => (failPlaceholder index, [failWarning index])

/-- The whole per-row loop of step 2 of `fetch_process_and_index_data`:
each row of the fetched page is summarized in order, accumulating
`summaries_for_chroma` and the printed warnings. -/
def summarize_page (parse : String → Option (List (String × String)))
    (rows : List String) : List String × List String :=
  rows.enum.foldl
    (fun acc ir =>
      let r := summarize_row parse ir.1 ir.2
      (acc.1 ++ [r.1], acc.2 ++ r.2))
    ([], [])

/-- `get_start_page`: the checkpoint file is modelled as `Option Nat`,
`none` covering both an absent file and unparsable content (the code
returns 1 for either, and it only ever writes integers). -/
def get_start_page : Option Nat → Nat
  | none => 1
  | some n => n + 1

/-- State of one run of the driver loop: the checkpoint file content
and the pages entered, in order. -/
structure RunState where
  ckpt : Option Nat
  attempted : List Nat
deriving DecidableEq

/-- The body of the driver loop over a list of page numbers: a
successful page is logged to the checkpoint (`log_completed_page`) and
the loop continues; the first failing page stops the run (`break`),
leaving the checkpoint as it was. -/
def runPageList (ok : Nat → Bool) : List Nat → RunState → RunState
  | [], st => st
  | p :: ps, st =>
    if ok p then
      runPageList ok ps { ckpt := some p, attempted := st.attempted ++ [p] }
    else
      { st with attempted := st.attempted ++ [p] }

/-- One invocation of the driver: read the start page from the
checkpoint file, then loop over `range(start_page, total_pages + 1)`.
The initial `ckpt` is the current file content, which survives
untouched if no page completes. -/
def runPipeline (ok : Nat → Bool) (total : Nat) (file : Option Nat) : RunState :=
  let start := get_start_page file
  runPageList ok (List.range' start (total + 1 - start)) { ckpt := file, attempted := [] }

end SqlToChroma

namespace MainApi

/-- `clean_null_bytes` from `main.py`: remove every null byte character
from the string (Python `text.replace` with a one-character pattern and
an empty replacement deletes every occurrence of that character). -/
def clean_null_bytes (s : String) : String :=
  String.mk (s.toList.filter (fun c => c ≠ '\x00'))

/-- A relational result record, as produced by `df.to_dict("records")`:
column name and rendered value pairs. -/
abbrev SqlRow := List (String × String)

/-- One entry of the parsed plan: the `tool` tag and the `query`
text. -/
structure QueryEntry where
  tool : String
  query : String
deriving DecidableEq

/-- The parsed plan: the value of its `queries` key. -/
structure PlanVal where
  queries : List QueryEntry
deriving DecidableEq

/-- One external query executed while processing a plan. -/
inductive Effect where
  | sqlQuery (q : String)
  | vectorQuery (q : String)
deriving DecidableEq

/-- The environment of one `/analyze` request: the two language-model
reply texts, the JSON parser applied to the plan reply (returning
`none` exactly when `json.loads` raises `JSONDecodeError`; a reply
whose entries are well-shaped is assumed, the key errors of a
malformed plan being a failure mode outside the claims), and the two
stores as total query functions. -/
structure AnalyzeEnv where
  planReplyText : String
  insightReplyText : String
  parsePlan : String → Option PlanVal
  db : String → List SqlRow
  vdb : String → List String

/-- The two accumulator dictionaries of the plan loop (association
lists in insertion order) plus the log of store queries issued. -/
structure ExecState where
  data_for_frontend : List (String × List SqlRow)
  retrieved_data : List (String × List String)
  effects : List Effect
deriving DecidableEq

/-- One iteration of `for q in plan["queries"]`: a `postgres` entry
runs the SQL text against the relational store and appends the records
under an index-derived key; a `vector` entry queries the collection
and appends the documents; any other tag matches no branch and does
nothing. -/
def execEntry (env : AnalyzeEnv) (st : ExecState) (q : QueryEntry) : ExecState :=
  if q.tool = "postgres" then
    { st with
      data_for_frontend := st.data_for_frontend ++
        [("sql_result_" ++ toString st.data_for_frontend.length, env.db q.query)]
      effects := st.effects ++ [.sqlQuery q.query] }
  else if q.tool = "vector" then
    { st with
      retrieved_data := st.retrieved_data ++
        [("vector_result_" ++ toString st.retrieved_data.length, env.vdb q.query)]
      effects := st.effects ++ [.vectorQuery q.query] }
  else st

/-- The whole plan loop. -/
def execPlan (env : AnalyzeEnv) (qs : List QueryEntry) (st : ExecState) : ExecState :=
  qs.foldl (execEntry env) st

/-- An HTTP error response (`HTTPException`): status code and
detail. -/
structure HTTPError where
  status : Nat
  detail : String
deriving DecidableEq

/-- The JSON body of a successful `/analyze` response. -/
structure AnalyzeResponse where
  insight_text : String
  data_for_charts : List (String × List SqlRow)
deriving DecidableEq

/-- A single-quote character, for rendering Python exception text. -/
def sq : String := String.singleton (Char.ofNat 39)

/-- `str(e)` for an `HTTPException`: its argument tuple rendered the
way Python prints a pair of a number and a quoted string. -/
def pyExcStr (status : Nat) (detail : String) : String :=
  "(" ++ toString status ++ ", " ++ sq ++ detail ++ sq ++ ")"

/-- Detail text of the inner invalid-plan `HTTPException`. -/
def invalidPlanMsg : String := "LLM did not return valid JSON plan."

/-- `plan_response_text` in `analyze_query`: the plan reply stripped
and cleaned of null bytes, exactly the string handed to
`json.loads`. -/
def plan_response_text (env : AnalyzeEnv) : String :=
  clean_null_bytes (PyStr.pyStrip env.planReplyText)

/-- `insight_response_text` in `analyze_query`: the synthesis reply
stripped and cleaned of null bytes. -/
def insight_response_text (env : AnalyzeEnv) : String :=
  clean_null_bytes (PyStr.pyStrip env.insightReplyText)

/-- The `/analyze` endpoint, `analyze_query` in `main.py`.  When the
plan reply fails to parse, the inner `HTTPException(500, ...)` is
itself caught by the surrounding blanket handler and re-raised as
`HTTPException(500, str(e))`, so the outgoing detail is the rendered
argument tuple of the inner exception.  Returns the response (or
error) together with the store queries that were executed. -/
def analyze_query (env : AnalyzeEnv) : Except HTTPError AnalyzeResponse × List Effect :=
  match env.parsePlan (plan_response_text env) with
  | none => (.error ⟨500, pyExcStr 500 invalidPlanMsg⟩, [])
  | some plan =>
    let st := execPlan env plan.queries ⟨[], [], []⟩
    (.ok ⟨insight_response_text env, st.data_for_frontend⟩, st.effects)

/-- The relational results of a plan suffix, keyed from index `k`:
what the loop appends to `data_for_frontend`. -/
def postgresResultsFrom (env : AnalyzeEnv) : Nat → List QueryEntry → List (String × List SqlRow)
  | _, [] => []
  | k, q :: qs =>
    if q.tool = "postgres" then
      ("sql_result_" ++ toString k, env.db q.query) :: postgresResultsFrom env (k + 1) qs
    else
      postgresResultsFrom env k qs

/-- One row of the `argo_profiles` table, restricted to the columns the
trajectory endpoint touches (the selected three plus the `timestamp`
sort key). -/
structure ProfRow where
  platform_id : Int
  latitude : ℚ
  longitude : ℚ
  timestamp : Int
deriving DecidableEq

/-- The ORDER BY key of the trajectory query: by platform id, then by
timestamp ascending. -/
def rowLe (a b : ProfRow) : Prop :=
  a.platform_id < b.platform_id ∨
    (a.platform_id = b.platform_id ∧ a.timestamp ≤ b.timestamp)

instance : DecidableRel rowLe := fun a b => by
  unfold rowLe; infer_instance

instance : IsTotal ProfRow rowLe where
  total a b := by
    unfold rowLe
    rcases lt_trichotomy a.platform_id b.platform_id with h | h | h
    · exact Or.inl (Or.inl h)
    · rcases le_total a.timestamp b.timestamp with ht | ht
      · exact Or.inl (Or.inr ⟨h, ht⟩)
      · exact Or.inr (Or.inr ⟨h.symm, ht⟩)
    · exact Or.inr (Or.inl h)

instance : IsTrans ProfRow rowLe where
  trans a b c hab hbc := by
    unfold rowLe at *
    rcases hab with h1 | ⟨h1, h1t⟩ <;> rcases hbc with h2 | ⟨h2, h2t⟩
    · exact Or.inl (h1.trans h2)
    · exact Or.inl (h2 ▸ h1)
    · exact Or.inl (h1 ▸ h2)
    · exact Or.inr ⟨h1.trans h2, h1t.trans h2t⟩

/-- The rows produced by `SELECT platform_id, latitude, longitude FROM
argo_profiles ORDER BY platform_id, timestamp ASC`, modelled over the
table contents in arbitrary storage order. -/
def orderedTable (t : List ProfRow) : List ProfRow :=
  List.insertionSort rowLe t

/-- `get_trajectories`: group the ordered rows by platform id (pandas
`groupby` keeps each group in dataframe order and emits the keys in
sorted order, here already sorted, deduplicated) and render each group
as its latitude-longitude pairs under the stringified id. -/
def get_trajectories (t : List ProfRow) : List (String × List (List ℚ)) :=
  let s := orderedTable t
  ((s.map (fun r => r.platform_id)).dedup).map
    (fun p =>
      (toString p,
        (s.filter (fun r => r.platform_id = p)).map
          (fun r => [r.latitude, r.longitude])))

end MainApi

namespace ArgoLoad

/-- Example cycle whose cycle-number conversion fails (e.g.
`int(cycles[i])` on a masked cycle number). -/
def cBad : CycleInput where
  cycleConv := Except.error "int conversion of masked cycle number"
  restConv := Except.ok ("2005-01-01T00:00:00", (10 : ℚ), (20 : ℚ))
  pres := []
  temp := []
  psal := []
  insertFails := false

/-- Example cycle where every step succeeds. -/
def cGood : CycleInput where
  cycleConv := Except.ok 2
  restConv := Except.ok ("2005-01-02T00:00:00", (11 : ℚ), (21 : ℚ))
  pres := [((100 : ℚ), false)]
  temp := [((15 : ℚ), false)]
  psal := [((35 : ℚ), false)]
  insertFails := false

end ArgoLoad

namespace SqlToChroma

/-- Example parser outcome: the reply is a valid JSON object but lacks
the summary field. -/
def parseNoSummary : String → Option (List (String × String)) :=
  fun _ => some [("region", "Arabian Sea")]

end SqlToChroma

namespace MainApi

/-- Example environment whose plan reply is not valid JSON. -/
def envC3 : AnalyzeEnv where
  planReplyText := "this is not json"
  insightReplyText := "some insight"
  parsePlan := fun _ => none
  db := fun _ => []
  vdb := fun _ => ["a context document"]

/-- Example plan mixing relational and vector entries. -/
def planC4 : PlanVal where
  queries :=
    [⟨"postgres", "SELECT avg(temperature) FROM argo_profiles"⟩,
     ⟨"vector", "floats in the Arabian Sea"⟩,
     ⟨"postgres", "SELECT count(*) FROM argo_profiles"⟩]

/-- Example environment whose plan reply parses to `planC4`. -/
def envC4 : AnalyzeEnv where
  planReplyText := "plan json"
  insightReplyText := "the basin is warm"
  parsePlan := fun _ => some planC4
  db := fun q => [[("query", q), ("value", "17")]]
  vdb := fun _ => ["doc one", "doc two"]

/-- Example environment with null bytes and padding in both language
model replies. -/
def envC8 : AnalyzeEnv where
  planReplyText := "  \x00plan\x00  "
  insightReplyText := "  insight\x00 text  "
  parsePlan := fun _ => some ⟨[]⟩
  db := fun _ => []
  vdb := fun _ => []

/-- Example stored table, three rows of one platform out of timestamp
order plus a row of another platform. -/
def tableC5 : List ProfRow :=
  [⟨7, 1, 2, 3⟩, ⟨5, 9, 9, 1⟩, ⟨7, 5, 6, 1⟩, ⟨7, 3, 4, 2⟩]

end MainApi

namespace ArgoLoad

theorem sumCount_go (p : MaskedProfile) (s : ℚ) (n : Nat) :
    p.foldl (fun acc x => if x.2 then acc else (acc.1 + x.1, acc.2 + 1)) (s, n)
      = (s + (validValues p).sum, n + (validValues p).length) := by
  induction p generalizing s n with
  | nil => simp [validValues]
  | cons x xs ih =>
    cases hm : x.2 with
    | false =>
      have hv : validValues (x :: xs) = x.1 :: validValues xs := by
        simp [validValues, List.filter_cons, hm]
      simp only [List.foldl_cons, hm, Bool.false_eq_true, if_false, ih, hv,
        List.sum_cons, List.length_cons, Prod.mk.injEq]
      constructor
      · ring
      · omega
    | true =>
      have hv : validValues (x :: xs) = validValues xs := by
        simp [validValues, List.filter_cons, hm]
      simp only [List.foldl_cons, hm, if_true, ih, hv]

theorem sumCount_eq (p : MaskedProfile) :
    sumCount p = ((validValues p).sum, (validValues p).length) := by
  simpa using sumCount_go p 0 0

/-- C1: for each profile variable of a cycle, an all-masked profile is
stored as an absent scalar, never a computed number, while a profile
with at least one valid element is stored as the mean of exactly its
valid elements; the inserted row wires all three scalars through this
average. -/
theorem c1_stored_scalar_is_mean_of_valid (p : MaskedProfile) :
    ((∀ x ∈ p, x.2 = true) → profile_avg p = none) ∧
    ((∃ x ∈ p, x.2 = false) →
      profile_avg p = some ((validValues p).sum / ((validValues p).length : ℚ))) ∧
    (∀ fid cyc t la lo pres temp psal,
      (buildRow fid cyc t la lo pres temp psal).pressure = profile_avg pres ∧
      (buildRow fid cyc t la lo pres temp psal).temperature = profile_avg temp ∧
      (buildRow fid cyc t la lo pres temp psal).salinity = profile_avg psal) := by
  refine ⟨?_, ?_, ?_⟩
  · intro h
    have ha : p.any (fun x => !x.2) = false := by
      simp only [List.any_eq_false, Bool.not_eq_true']
      intro x hx
      simp [h x hx]
    simp [profile_avg, ha]
  · rintro ⟨x, hx, hxm⟩
    have ha : p.any (fun x => !x.2) = true := by
      simp only [List.any_eq_true]
      exact ⟨x, hx, by simp [hxm]⟩
    simp [profile_avg, ha, nanmean, sumCount_eq]
  · intro fid cyc t la lo pres temp psal
    exact ⟨rfl, rfl, rfl⟩

/-- Witness for C1, on an all-masked profile and on a profile with
valid values 3 and 7 (their mean being 5). -/
theorem c1_stored_scalar_is_mean_of_valid_witness :
    profile_avg [((2 : ℚ), true), ((3 : ℚ), true)] = none ∧
    profile_avg [((3 : ℚ), false), ((5 : ℚ), true), ((7 : ℚ), false)]
      = some ((validValues [((3 : ℚ), false), ((5 : ℚ), true), ((7 : ℚ), false)]).sum /
          ((validValues [((3 : ℚ), false), ((5 : ℚ), true), ((7 : ℚ), false)]).length : ℚ)) ∧
    profile_avg [((3 : ℚ), false), ((5 : ℚ), true), ((7 : ℚ), false)] = some 5 := by
  refine ⟨?_, ?_, ?_⟩
  · exact (c1_stored_scalar_is_mean_of_valid _).1 (by decide)
  · exact (c1_stored_scalar_is_mean_of_valid _).2.1 ⟨((3 : ℚ), false), by decide, rfl⟩
  · refine ((c1_stored_scalar_is_mean_of_valid _).2.1
      ⟨((3 : ℚ), false), by decide, rfl⟩).trans ?_
    norm_num [validValues]

theorem processCycles_bound_true (fid : String) (cs : List CycleInput) (db : List Row) :
    processCycles fid true db cs = (db ++ cs.filterMap (successRow fid), cs.length) := by
  induction cs generalizing db with
  | nil => simp [processCycles]
  | cons c cs ih =>
    cases hc : c.cycleConv with
    | error e => simp [processCycles, hc, successRow, ih]
    | ok cyc =>
      cases hr : c.restConv with
      | error e => simp [processCycles, hc, hr, successRow, ih]
      | ok tll =>
        obtain ⟨t, la, lo⟩ := tll
        cases hi : c.insertFails with
        | false => simp [processCycles, hc, hr, hi, successRow, ih]
        | true => simp [processCycles, hc, hr, hi, successRow, ih]

theorem processCycles_head_ok (fid : String) (db : List Row) (c : CycleInput)
    (cs : List CycleInput) (h : ∃ cyc, c.cycleConv = Except.ok cyc) :
    processCycles fid false db (c :: cs)
      = (db ++ (c :: cs).filterMap (successRow fid), (c :: cs).length) := by
  obtain ⟨cyc, hc⟩ := h
  cases hr : c.restConv with
  | error e => simp [processCycles, hc, hr, successRow, processCycles_bound_true]
  | ok tll =>
    obtain ⟨t, la, lo⟩ := tll
    cases hi : c.insertFails with
    | false => simp [processCycles, hc, hr, hi, successRow, processCycles_bound_true]
    | true => simp [processCycles, hc, hr, hi, successRow, processCycles_bound_true]

theorem process_nc_file_append (db : List Row) (f : FileInput) :
    process_nc_file db f = db ++ process_nc_file [] f := by
  cases f with
  | error e => simp [process_nc_file]
  | ok v =>
    obtain ⟨fid, cs⟩ := v
    cases cs with
    | nil => simp [process_nc_file, processCycles]
    | cons c cs =>
      cases hc : c.cycleConv with
      | error e => simp [process_nc_file, processCycles, hc]
      | ok cyc =>
        have h1 := processCycles_head_ok fid db c cs ⟨cyc, hc⟩
        have h2 := processCycles_head_ok fid [] c cs ⟨cyc, hc⟩
        simp [process_nc_file, h1, h2]

/-- C6 counterexample: a file whose first cycle fails in the
cycle-number conversion.  Only one of the two cycles is attempted: the
except handler interpolates the loop variable holding the cycle
number, which the failing statement never assigned, so the handler
raises an unbound-local error and the outer per-file handler swallows
the rest of the file.  The second cycle would have committed a row had
it been attempted. -/
theorem c6_counterexample :
    (processCycles "F1" false [] [cBad, cGood]).2 = 1 ∧
    (processCycles "F1" false [] [cBad, cGood]).1 = [] ∧
    successRow "F1" cGood ≠ none := by
  refine ⟨rfl, rfl, ?_⟩
  simp [successRow, cGood]

/-- C6 (amended): provided the first cycle's cycle-number conversion
succeeds, a failure on any single cycle is rolled back without
aborting the remaining cycles — every cycle is attempted and exactly
the fully successful cycles commit a row each, independently; and a
file-level failure never aborts the remaining files of the folder. -/
theorem c6_failure_containment (fid : String) (db : List Row) (c : CycleInput)
    (cs : List CycleInput) (fs1 fs2 : List FileInput) (f : FileInput)
    (hhead : ∃ cyc, c.cycleConv = Except.ok cyc) :
    (processCycles fid false db (c :: cs)).2 = (c :: cs).length ∧
    (processCycles fid false db (c :: cs)).1 = db ++ (c :: cs).filterMap (successRow fid) ∧
    processFolder db (fs1 ++ f :: fs2)
      = processFolder (process_nc_file (processFolder db fs1) f) fs2 := by
  refine ⟨?_, ?_, ?_⟩
  · rw [processCycles_head_ok fid db c cs hhead]
  · rw [processCycles_head_ok fid db c cs hhead]
  · simp [processFolder, List.foldl_append]

/-- Witness for C6 (amended): a file whose second cycle fails is fully
attempted, and the folder loop continues past any file. -/
theorem c6_failure_containment_witness :
    (processCycles "F1" false [] [cGood, cBad]).2 = [cGood, cBad].length ∧
    (processCycles "F1" false [] [cGood, cBad]).1
      = [] ++ [cGood, cBad].filterMap (successRow "F1") ∧
    processFolder [] ([] ++ Except.ok ("F1", [cGood]) :: [])
      = processFolder
          (process_nc_file (processFolder [] []) (Except.ok ("F1", [cGood]))) [] :=
  c6_failure_containment "F1" [] cGood [cBad] [] [] (Except.ok ("F1", [cGood]))
    ⟨2, rfl⟩

/-- C9: re-running the Ingestor over the same file appends the same
rows again — the result on any prior table is the prior table plus a
per-file block, so the second run grows the table by exactly one row
per successfully committed cycle, with no uniqueness check consulting
the existing rows. -/
theorem c9_rerun_duplicates (db : List Row) (f : FileInput) :
    process_nc_file db f = db ++ process_nc_file [] f ∧
    (process_nc_file (process_nc_file db f) f).length
      = (process_nc_file db f).length + (process_nc_file [] f).length ∧
    (∀ fid c cs, f = Except.ok (fid, c :: cs) → (∃ cyc, c.cycleConv = Except.ok cyc) →
      process_nc_file [] f = (c :: cs).filterMap (successRow fid)) ∧
    (0 < (process_nc_file [] f).length →
      (process_nc_file db f).length < (process_nc_file (process_nc_file db f) f).length) := by
  refine ⟨process_nc_file_append db f, ?_, ?_, ?_⟩
  · rw [process_nc_file_append (process_nc_file db f) f]
    simp
  · rintro fid c cs rfl hc
    rw [process_nc_file]
    rw [processCycles_head_ok fid [] c cs hc]
    simp
  · intro hpos
    rw [process_nc_file_append (process_nc_file db f) f]
    simp [hpos]

/-- Witness for C9 on a one-cycle file: the rerun adds one duplicate
row. -/
theorem c9_rerun_duplicates_witness :
    process_nc_file [] (Except.ok ("F1", [cGood]))
      = [] ++ process_nc_file [] (Except.ok ("F1", [cGood])) ∧
    (process_nc_file (process_nc_file [] (Except.ok ("F1", [cGood])))
        (Except.ok ("F1", [cGood]))).length
      = (process_nc_file [] (Except.ok ("F1", [cGood]))).length +
          (process_nc_file [] (Except.ok ("F1", [cGood]))).length ∧
    (0 < (process_nc_file [] (Except.ok ("F1", [cGood]))).length →
      (process_nc_file [] (Except.ok ("F1", [cGood]))).length <
        (process_nc_file (process_nc_file [] (Except.ok ("F1", [cGood])))
            (Except.ok ("F1", [cGood]))).length) ∧
    process_nc_file [] (Except.ok ("F1", [cGood]))
      = [cGood].filterMap (successRow "F1") := by
  have h := c9_rerun_duplicates [] (Except.ok ("F1", [cGood]))
  exact ⟨h.1, h.2.1, h.2.2.2, h.2.2.1 "F1" cGood [] rfl ⟨2, rfl⟩⟩

end ArgoLoad

namespace SqlToChroma

theorem runPageList_all_ok (ok : Nat → Bool) :
    ∀ (len start : Nat) (st : RunState),
      (∀ q, start ≤ q → q < start + len → ok q = true) →
      runPageList ok (List.range' start len) st
        = { ckpt := if len = 0 then st.ckpt else some (start + len - 1),
            attempted := st.attempted ++ List.range' start len } := by
  intro len
  induction len with
  | zero => intro start st _; simp [runPageList]
  | succ n ih =>
    intro start st h
    rw [List.range'_succ]
    have hs : ok start = true := h start le_rfl (by omega)
    simp only [runPageList, hs, if_true]
    rw [ih (start + 1) _ (fun q h1 h2 => h q (by omega) (by omega))]
    simp only [RunState.mk.injEq]
    constructor
    · cases n with
      | zero => simp
      | succ m =>
        simp only [Nat.succ_ne_zero, if_false]
        congr 1
        omega
    · simp [List.range'_succ]

theorem runPageList_fail_at (ok : Nat → Bool) (K : Nat) (hK : ok K = false) :
    ∀ (len start : Nat) (st : RunState),
      start ≤ K → K < start + len →
      (∀ q, start ≤ q → q < K → ok q = true) →
      runPageList ok (List.range' start len) st
        = { ckpt := if start = K then st.ckpt else some (K - 1),
            attempted := st.attempted ++ List.range' start (K + 1 - start) } := by
  intro len
  induction len with
  | zero => intro start st h1 h2 _; omega
  | succ n ih =>
    intro start st h1 h2 h3
    rw [List.range'_succ]
    by_cases hs : start = K
    · have hsK : ok start = false := hs ▸ hK
      simp only [runPageList, hsK, Bool.false_eq_true, if_false, if_pos hs]
      have hr : K + 1 - start = 1 := by omega
      simp [hr, List.range'_succ]
    · have hst : ok start = true := h3 start le_rfl (by omega)
      simp only [runPageList, hst, if_true]
      rw [ih (start + 1) _ (by omega) (by omega) (fun q hq1 hq2 => h3 q (by omega) hq2)]
      simp only [RunState.mk.injEq]
      constructor
      · by_cases hs1 : start + 1 = K
        · rw [if_pos hs1, if_neg hs]
          simp only [Option.some.injEq]
          omega
        · rw [if_neg hs1, if_neg hs]
      · have hr : K + 1 - start = (K + 1 - (start + 1)) + 1 := by omega
        rw [hr, List.range'_succ]
        simp

/-- C2 counterexample: a fresh run that fails on its very first page
(K = 1) leaves the checkpoint file absent — it does not contain
K − 1 = 0 — although a subsequent run does still resume at page 1. -/
theorem c2_counterexample :
    (runPipeline (fun _ => false) 3 none).ckpt = none ∧
    (runPipeline (fun _ => false) 3 none).ckpt ≠ some 0 ∧
    (runPipeline (fun _ => false) 3 none).attempted = [1] ∧
    get_start_page (runPipeline (fun _ => false) 3 none).ckpt = 1 := by
  refine ⟨rfl, ?_, rfl, rfl⟩
  decide

/-- C2 (amended): after N ≥ 1 consecutive successful pages of a fresh
run the checkpoint contains exactly N; when page K fails after pages
1..K−1 succeeded, the checkpoint is not advanced — it contains K − 1
when K ≥ 2 and remains absent when K = 1 — pages beyond K are not
attempted, and a subsequent run reads the checkpoint and resumes at
page K (immediately retrying exactly page K). -/
theorem c2_checkpoint_resume (ok1 ok2 : Nat → Bool) (N K total : Nat)
    (hN : 1 ≤ N) (hok1 : ∀ p, 1 ≤ p → p ≤ N → ok1 p = true)
    (hK : 1 ≤ K) (hKt : K ≤ total)
    (hok2 : ∀ p, 1 ≤ p → p < K → ok2 p = true) (hfail : ok2 K = false) :
    (runPipeline ok1 N none).ckpt = some N ∧
    (runPipeline ok2 total none).ckpt = (if K = 1 then none else some (K - 1)) ∧
    (2 ≤ K → (runPipeline ok2 total none).ckpt = some (K - 1)) ∧
    (runPipeline ok2 total none).attempted = List.range' 1 K ∧
    get_start_page (runPipeline ok2 total none).ckpt = K ∧
    (runPipeline ok2 total ((runPipeline ok2 total none).ckpt)).attempted = [K] := by
  have hrun1 : runPipeline ok1 N none
      = { ckpt := if N = 0 then none else some (1 + N - 1),
          attempted := [] ++ List.range' 1 N } := by
    rw [runPipeline]
    simp only [get_start_page]
    rw [show N + 1 - 1 = N from by omega]
    exact runPageList_all_ok ok1 N 1 _ (fun q h1 h2 => hok1 q h1 (by omega))
  have hrun2 : runPipeline ok2 total none
      = { ckpt := if 1 = K then none else some (K - 1),
          attempted := [] ++ List.range' 1 (K + 1 - 1) } := by
    rw [runPipeline]
    simp only [get_start_page]
    rw [show total + 1 - 1 = total from by omega]
    exact runPageList_fail_at ok2 K hfail total 1 _ hK (by omega)
      (fun q h1 h2 => hok2 q h1 h2)
  have hckpt2 : (runPipeline ok2 total none).ckpt
      = (if K = 1 then none else some (K - 1)) := by
    rw [hrun2]
    by_cases h1 : K = 1
    · simp [h1]
    · have h2 : ¬ 1 = K := fun h => h1 h.symm
      simp [h1, h2]
  refine ⟨?_, hckpt2, ?_, ?_, ?_, ?_⟩
  · rw [hrun1]
    have : ¬ N = 0 := by omega
    simp only [this, if_false]
    congr 1
    omega
  · intro h2
    rw [hckpt2]
    have : ¬ K = 1 := by omega
    simp [this]
  · rw [hrun2]
    simp [show K + 1 - 1 = K from by omega]
  · rw [hckpt2]
    by_cases h1 : K = 1
    · simp [h1, get_start_page]
    · simp only [h1, if_false, get_start_page]
      omega
  · rw [hckpt2]
    have hstart : get_start_page (if K = 1 then none else some (K - 1)) = K := by
      by_cases h1 : K = 1
      · simp [h1, get_start_page]
      · simp only [h1, if_false, get_start_page]
        omega
    rw [runPipeline]
    simp only [hstart]
    rw [runPageList_fail_at ok2 K hfail (total + 1 - K) K _ le_rfl (by omega)
      (fun q hq1 hq2 => absurd hq2 (by omega))]
    have hr : K + 1 - K = 1 := by omega
    simp [hr, List.range'_succ]

/-- Witness for C2 (amended): three successful pages record 3; with
pages 1 succeeding and page 2 failing out of 4, the checkpoint holds
1, pages 3 and 4 are not attempted, and the next run retries page 2. -/
theorem c2_checkpoint_resume_witness :
    (runPipeline (fun p => decide (p ≤ 3)) 3 none).ckpt = some 3 ∧
    (runPipeline (fun p => decide (p ≠ 2)) 4 none).ckpt = (if 2 = 1 then none else some (2 - 1)) ∧
    (2 ≤ 2 → (runPipeline (fun p => decide (p ≠ 2)) 4 none).ckpt = some (2 - 1)) ∧
    (runPipeline (fun p => decide (p ≠ 2)) 4 none).attempted = List.range' 1 2 ∧
    get_start_page (runPipeline (fun p => decide (p ≠ 2)) 4 none).ckpt = 2 ∧
    (runPipeline (fun p => decide (p ≠ 2)) 4
        ((runPipeline (fun p => decide (p ≠ 2)) 4 none).ckpt)).attempted = [2] :=
  c2_checkpoint_resume (fun p => decide (p ≤ 3)) (fun p => decide (p ≠ 2)) 3 2 4
    (by omega) (fun p _ h2 => decide_eq_true h2)
    (by omega) (by omega)
    (fun p h1 h2 => decide_eq_true (by omega)) (by decide)

theorem summarize_page_go (parse : String → Option (List (String × String)))
    (l : List (Nat × String)) (acc1 acc2 : List String) :
    l.foldl
        (fun acc ir =>
          let r := summarize_row parse ir.1 ir.2
          (acc.1 ++ [r.1], acc.2 ++ r.2))
        (acc1, acc2)
      = (acc1 ++ l.map (fun ir => (summarize_row parse ir.1 ir.2).1),
         acc2 ++ (l.map (fun ir => (summarize_row parse ir.1 ir.2).2)).flatten) := by
  induction l generalizing acc1 acc2 with
  | nil => simp
  | cons x xs ih => simp [ih]

theorem summarize_page_eq (parse : String → Option (List (String × String)))
    (rows : List String) :
    summarize_page parse rows
      = (rows.enum.map (fun ir => (summarize_row parse ir.1 ir.2).1),
         (rows.enum.map (fun ir => (summarize_row parse ir.1 ir.2).2)).flatten) := by
  rw [summarize_page]
  simpa using summarize_page_go parse rows.enum [] []

/-- C7 counterexample: a reply that parses as a JSON object without a
summary field.  The placeholder is recorded and processing continues,
but no error is logged for the row (the warning list stays empty),
contradicting the claim that such a row logs the error. -/
theorem c7_counterexample :
    summarize_row parseNoSummary 0 "reply" = ("Summary not available.", []) ∧
    (summarize_page parseNoSummary ["reply", "other"]).2 = [] ∧
    (summarize_page parseNoSummary ["reply", "other"]).1
      = ["Summary not available.", "Summary not available."] := by
  refine ⟨rfl, ?_, ?_⟩ <;> rfl

/-- C7 (amended): every row of a page yields exactly one recorded
summary and processing always reaches every row; a reply that fails to
parse records the failure placeholder and logs a warning, while a
reply that parses but lacks the summary field silently records the
default placeholder without logging; a present summary field is
recorded as-is. -/
theorem c7_row_failure_isolated (parse : String → Option (List (String × String)))
    (rows : List String) (i : Nat) (r : String) :
    (summarize_page parse rows).1.length = rows.length ∧
    (summarize_page parse rows).1
      = rows.enum.map (fun ir => (summarize_row parse ir.1 ir.2).1) ∧
    (parse (clean_reply r) = none →
      summarize_row parse i r = (failPlaceholder i, [failWarning i])) ∧
    (∀ obj, parse (clean_reply r) = some obj → obj.lookup "summary" = none →
      summarize_row parse i r = ("Summary not available.", [])) ∧
    (∀ obj s, parse (clean_reply r) = some obj → obj.lookup "summary" = some s →
      summarize_row parse i r = (s, [])) := by
  refine ⟨?_, ?_, ?_, ?_, ?_⟩
  · rw [summarize_page_eq]
    simp [List.enum_length]
  · rw [summarize_page_eq]
  · intro h
    simp [summarize_row, h]
  · intro obj h hs
    simp [summarize_row, h, hs]
  · intro obj s h hs
    simp [summarize_row, h, hs]

/-- Witness for C7 (amended): a parser that always fails still yields
one summary per row, each the failure placeholder with its warning. -/
theorem c7_row_failure_isolated_witness :
    (summarize_page (fun _ => none) ["a", "b"]).1.length = ["a", "b"].length ∧
    summarize_row (fun _ => none) 0 "x" = (failPlaceholder 0, [failWarning 0]) ∧
    summarize_row parseNoSummary 1 "y" = ("Summary not available.", []) :=
  ⟨(c7_row_failure_isolated (fun _ => none) ["a", "b"] 0 "x").1,
   (c7_row_failure_isolated (fun _ => none) ["a", "b"] 0 "x").2.2.1 rfl,
   (c7_row_failure_isolated parseNoSummary ["a", "b"] 1 "y").2.2.2.1
     [("region", "Arabian Sea")] rfl rfl⟩

end SqlToChroma

namespace MainApi

theorem execEntry_other (env : AnalyzeEnv) (st : ExecState) (q : QueryEntry)
    (h1 : q.tool ≠ "postgres") (h2 : q.tool ≠ "vector") :
    execEntry env st q = st := by
  simp [execEntry, h1, h2]

theorem execPlan_frontend (env : AnalyzeEnv) (qs : List QueryEntry) :
    ∀ st : ExecState,
      (execPlan env qs st).data_for_frontend
        = st.data_for_frontend ++ postgresResultsFrom env st.data_for_frontend.length qs := by
  induction qs with
  | nil => intro st; simp [execPlan, postgresResultsFrom]
  | cons q qs ih =>
    intro st
    rw [execPlan, List.foldl_cons,
      show List.foldl (execEntry env) (execEntry env st q) qs
        = execPlan env qs (execEntry env st q) from rfl, ih]
    by_cases hp : q.tool = "postgres"
    · simp [execEntry, hp, postgresResultsFrom]
    · by_cases hv : q.tool = "vector"
      · simp [execEntry, hp, hv, postgresResultsFrom]
      · simp [execEntry, hp, hv, postgresResultsFrom]

theorem postgresResultsFrom_congr (env1 env2 : AnalyzeEnv) (hdb : env1.db = env2.db) :
    ∀ (k : Nat) (qs : List QueryEntry),
      postgresResultsFrom env1 k qs = postgresResultsFrom env2 k qs := by
  intro k qs
  induction qs generalizing k with
  | nil => rfl
  | cons q qs ih =>
    by_cases hp : q.tool = "postgres" <;> simp [postgresResultsFrom, hp, hdb, ih]

theorem analyze_query_ok (env : AnalyzeEnv) (plan : PlanVal)
    (h : env.parsePlan (plan_response_text env) = some plan) :
    (analyze_query env).1
      = Except.ok ⟨insight_response_text env, postgresResultsFrom env 0 plan.queries⟩ := by
  simp [analyze_query, h, execPlan_frontend]

/-- C3: when the plan reply is not valid JSON, `/analyze` answers with
status 500 and a detail carrying the invalid-plan message (the inner
`HTTPException` is re-rendered by the blanket handler), and no
relational or vector query is ever issued. -/
theorem c3_invalid_plan_no_queries (env : AnalyzeEnv)
    (h : env.parsePlan (plan_response_text env) = none) :
    (analyze_query env).1 = Except.error ⟨500, pyExcStr 500 invalidPlanMsg⟩ ∧
    (analyze_query env).2 = [] := by
  constructor <;> simp [analyze_query, h]

/-- Witness for C3, on an environment whose plan reply never parses. -/
theorem c3_invalid_plan_no_queries_witness :
    (analyze_query envC3).1 = Except.error ⟨500, pyExcStr 500 invalidPlanMsg⟩ ∧
    (analyze_query envC3).2 = [] :=
  c3_invalid_plan_no_queries envC3 rfl

/-- C4: a successful `/analyze` response carries in `data_for_charts`
exactly the relational results of the postgres plan entries, keyed in
order — vector results never reach the payload, and replacing the
vector store wholesale does not change the response. -/
theorem c4_charts_postgres_only (env : AnalyzeEnv) (plan : PlanVal)
    (h : env.parsePlan (plan_response_text env) = some plan) :
    (analyze_query env).1
      = Except.ok ⟨insight_response_text env, postgresResultsFrom env 0 plan.queries⟩ ∧
    (∀ v : String → List String,
      (analyze_query { env with vdb := v }).1
        = Except.ok ⟨insight_response_text env, postgresResultsFrom env 0 plan.queries⟩) := by
  refine ⟨analyze_query_ok env plan h, ?_⟩
  intro v
  have h5 := analyze_query_ok { env with vdb := v } plan h
  rwa [postgresResultsFrom_congr { env with vdb := v } env rfl] at h5

/-- Witness for C4 on a plan with two postgres entries around a vector
entry: only the two relational results appear, under consecutive
keys. -/
theorem c4_charts_postgres_only_witness :
    (analyze_query envC4).1
      = Except.ok ⟨insight_response_text envC4, postgresResultsFrom envC4 0 planC4.queries⟩ ∧
    (analyze_query { envC4 with vdb := fun _ => ["another doc"] }).1
      = Except.ok ⟨insight_response_text envC4, postgresResultsFrom envC4 0 planC4.queries⟩ ∧
    postgresResultsFrom envC4 0 planC4.queries
      = [("sql_result_0",
            [[("query", "SELECT avg(temperature) FROM argo_profiles"), ("value", "17")]]),
         ("sql_result_1",
            [[("query", "SELECT count(*) FROM argo_profiles"), ("value", "17")]])] :=
  ⟨(c4_charts_postgres_only envC4 planC4 rfl).1,
   (c4_charts_postgres_only envC4 planC4 rfl).2 (fun _ => ["another doc"]),
   rfl⟩

/-- C10: a plan entry whose tool tag is neither postgres nor vector is
silently skipped — it changes nothing in the loop state, raises no
error, and the surrounding entries execute exactly as if it were
absent. -/
theorem c10_unknown_tool_skipped (env : AnalyzeEnv) (st : ExecState)
    (qs1 qs2 : List QueryEntry) (e : QueryEntry)
    (h1 : e.tool ≠ "postgres") (h2 : e.tool ≠ "vector") :
    execEntry env st e = st ∧
    execPlan env (qs1 ++ e :: qs2) st = execPlan env (qs1 ++ qs2) st := by
  refine ⟨execEntry_other env st e h1 h2, ?_⟩
  induction qs1 generalizing st with
  | nil =>
    rw [List.nil_append, List.nil_append, execPlan, List.foldl_cons,
      execEntry_other env st e h1 h2]
    rfl
  | cons q qs ih =>
    rw [List.cons_append, execPlan, List.foldl_cons,
      show List.foldl (execEntry env) (execEntry env st q) (qs ++ e :: qs2)
        = execPlan env (qs ++ e :: qs2) (execEntry env st q) from rfl,
      ih (execEntry env st q)]
    rfl

/-- Witness for C10: an entry tagged graph between a postgres and a
vector entry is a no-op for the plan execution. -/
theorem c10_unknown_tool_skipped_witness :
    execEntry envC4 ⟨[], [], []⟩ ⟨"graph", "MATCH (n) RETURN n"⟩ = ⟨[], [], []⟩ ∧
    execPlan envC4
        ([⟨"postgres", "SELECT 1"⟩] ++ ⟨"graph", "MATCH (n) RETURN n"⟩ :: [⟨"vector", "context"⟩])
        ⟨[], [], []⟩
      = execPlan envC4 ([⟨"postgres", "SELECT 1"⟩] ++ [⟨"vector", "context"⟩]) ⟨[], [], []⟩ :=
  c10_unknown_tool_skipped envC4 ⟨[], [], []⟩ [⟨"postgres", "SELECT 1"⟩]
    [⟨"vector", "context"⟩] ⟨"graph", "MATCH (n) RETURN n"⟩ (by decide) (by decide)

theorem clean_null_bytes_no_null (s : String) :
    ∀ c ∈ (clean_null_bytes s).toList, c ≠ '\x00' := by
  intro c hc
  have h : c ∈ s.toList.filter (fun c => c ≠ '\x00') := hc
  simp only [List.mem_filter, decide_not, Bool.not_eq_eq_eq_not, Bool.not_true,
    decide_eq_false_iff_not] at h
  exact h.2

/-- C8: both language-model replies are stripped and cleaned of null
bytes before any further use — the string handed to the JSON parser
and the echoed insight text contain no null byte, the successful
response's `insight_text` is exactly the cleaned synthesis reply, and
the invalid-plan error occurs precisely when the cleaned plan text
fails to parse. -/
theorem c8_null_bytes_never_echoed (env : AnalyzeEnv) :
    (∀ c ∈ (plan_response_text env).toList, c ≠ '\x00') ∧
    (∀ c ∈ (insight_response_text env).toList, c ≠ '\x00') ∧
    (∀ r, (analyze_query env).1 = Except.ok r → r.insight_text = insight_response_text env) ∧
    (∀ r c, (analyze_query env).1 = Except.ok r → c ∈ r.insight_text.toList → c ≠ '\x00') ∧
    ((analyze_query env).1 = Except.error ⟨500, pyExcStr 500 invalidPlanMsg⟩
      ↔ env.parsePlan (plan_response_text env) = none) := by
  have hok : ∀ r, (analyze_query env).1 = Except.ok r →
      r.insight_text = insight_response_text env := by
    intro r hr
    cases hp : env.parsePlan (plan_response_text env) with
    | none => simp [analyze_query, hp] at hr
    | some plan =>
      simp only [analyze_query, hp] at hr
      injection hr with h2
      rw [← h2]
  refine ⟨clean_null_bytes_no_null _, clean_null_bytes_no_null _, hok, ?_, ?_, ?_⟩
  · intro r c hr hc
    rw [hok r hr] at hc
    exact clean_null_bytes_no_null _ c hc
  · intro he
    cases hp : env.parsePlan (plan_response_text env) with
    | none => rfl
    | some plan => simp [analyze_query, hp] at he
  · intro hp
    simp [analyze_query, hp]

/-- Witness for C8 on replies containing padding and null bytes: the
cleaned insight survives as the response text, free of null bytes. -/
theorem c8_null_bytes_never_echoed_witness :
    (AnalyzeResponse.insight_text ⟨"insight text", []⟩ = insight_response_text envC8) ∧
    (∀ c ∈ (insight_response_text envC8).toList, c ≠ '\x00') ∧
    insight_response_text envC8 = "insight text" :=
  ⟨(c8_null_bytes_never_echoed envC8).2.2.1 ⟨"insight text", []⟩ rfl,
   (c8_null_bytes_never_echoed envC8).2.1,
   rfl⟩

/-- C5: `/trajectories` maps each platform id, stringified, to that
platform's coordinate pairs in ascending timestamp order.  Whatever
the storage order `t` — any list whose rows of platform `p` are a
permutation `rs` put in strictly increasing timestamp order — the
response pairs `p` with exactly the coordinates of `rs` in that
order. -/
theorem c5_trajectories_in_time_order (t : List ProfRow) (p : Int) (rs : List ProfRow)
    (hperm : (t.filter (fun r => r.platform_id = p)).Perm rs)
    (hsorted : List.Sorted (fun a b : ProfRow => a.timestamp < b.timestamp) rs)
    (hne : rs ≠ []) :
    (toString p, rs.map (fun r => [r.latitude, r.longitude])) ∈ get_trajectories t := by
  have hsperm : (orderedTable t).Perm t := List.perm_insertionSort rowLe t
  have hfilperm : ((orderedTable t).filter (fun r => r.platform_id = p)).Perm rs :=
    (hsperm.filter _).trans hperm
  have hsorted_s : List.Sorted rowLe (orderedTable t) := List.sorted_insertionSort rowLe t
  have hsorted_fil :
      List.Sorted rowLe ((orderedTable t).filter (fun r => r.platform_id = p)) :=
    List.Pairwise.filter _ hsorted_s
  have hmemp : ∀ r ∈ (orderedTable t).filter (fun r => r.platform_id = p),
      r.platform_id = p := by
    intro r hr
    simpa using (List.mem_filter.mp hr).2
  have hts_le : List.Pairwise (fun a b : ProfRow => a.timestamp ≤ b.timestamp)
      ((orderedTable t).filter (fun r => r.platform_id = p)) := by
    refine List.Pairwise.imp_of_mem ?_ hsorted_fil
    intro a b ha hb hab
    have hab2 : a.platform_id < b.platform_id ∨
        (a.platform_id = b.platform_id ∧ a.timestamp ≤ b.timestamp) := hab
    rcases hab2 with h | ⟨_, h⟩
    · exfalso
      rw [hmemp a ha, hmemp b hb] at h
      exact lt_irrefl p h
    · exact h
  have hts_ne_rs : List.Pairwise (fun a b : ProfRow => a.timestamp ≠ b.timestamp) rs :=
    hsorted.imp (fun h => ne_of_lt h)
  have hts_ne : List.Pairwise (fun a b : ProfRow => a.timestamp ≠ b.timestamp)
      ((orderedTable t).filter (fun r => r.platform_id = p)) :=
    (List.Perm.pairwise_iff (fun h => Ne.symm h) hfilperm).mpr hts_ne_rs
  have hts_lt : List.Sorted (fun a b : ProfRow => a.timestamp < b.timestamp)
      ((orderedTable t).filter (fun r => r.platform_id = p)) :=
    (hts_le.and hts_ne).imp (fun h => lt_of_le_of_ne h.1 h.2)
  haveI : IsAntisymm ProfRow (fun a b : ProfRow => a.timestamp < b.timestamp) :=
    ⟨fun _ _ h1 h2 => (lt_irrefl _ (h1.trans h2)).elim⟩
  have heq : (orderedTable t).filter (fun r => r.platform_id = p) = rs :=
    List.eq_of_perm_of_sorted hfilperm hts_lt hsorted
  obtain ⟨r0, hr0⟩ := List.exists_mem_of_ne_nil rs hne
  have hr0fil : r0 ∈ (orderedTable t).filter (fun r => r.platform_id = p) := heq ▸ hr0
  have hr0s : r0 ∈ orderedTable t := (List.mem_filter.mp hr0fil).1
  have hr0p : r0.platform_id = p := by
    simpa using (List.mem_filter.mp hr0fil).2
  have hpd : p ∈ ((orderedTable t).map (fun r => r.platform_id)).dedup := by
    rw [List.mem_dedup]
    exact List.mem_map.mpr ⟨r0, hr0s, hr0p⟩
  have hmem : (toString p,
      ((orderedTable t).filter (fun r => r.platform_id = p)).map
        (fun r => [r.latitude, r.longitude])) ∈ get_trajectories t := by
    simp only [get_trajectories]
    exact List.mem_map.mpr ⟨p, hpd, rfl⟩
  rwa [heq] at hmem

/-- Witness for C5: a platform stored out of timestamp order comes
back with its coordinates in ascending timestamp order. -/
theorem c5_trajectories_in_time_order_witness :
    (toString (7 : Int), [[(5 : ℚ), 6], [(3 : ℚ), 4], [(1 : ℚ), 2]])
      ∈ get_trajectories tableC5 := by
  have h := c5_trajectories_in_time_order tableC5 7
    [⟨7, 5, 6, 1⟩, ⟨7, 3, 4, 2⟩, ⟨7, 1, 2, 3⟩] (by decide) (by decide) (by decide)
  simpa using h

end MainApi
